import Mathlib

/-!
Verification of `src/main.py` of the `contacts_scrape` repository against its
natural-language specification.

The program is embedded shallowly:

* Strings are `List Char` (Unicode scalar values, as in Python 3 `str`).
* The three regular expressions of `parse_contacts` are embedded as sequences
  of pattern items (`RItem`): literal chunks, `\s*`, non-capturing `[^x]+`,
  and the single capturing `([^x]+)` group.  In each of the three patterns
  every repeated character class excludes the first character of the literal
  that follows it, so Python's greedy backtracking matcher is deterministic on
  them: take the maximal run of the class, then the literal must follow.
  `matchItems` implements exactly that, and `findAll` implements
  `re.findall`'s left-to-right non-overlapping scan (returning the single
  capture group of each match, as `re.findall` does for one-group patterns).
* The SQLite store is a list of `(name, title, email)` rows; the
  `email UNIQUE` constraint together with `INSERT OR IGNORE` makes an insert
  a no-op exactly when a row with the same email is already present.
* The network is an oracle value `HttpOutcome` (a status/body response or a
  transport fault); `response.raise_for_status()` raises for 4xx/5xx.
* GUI side effects are the produced data: the text written to the scrolled
  text widget, and a flag recording whether an error dialog was shown.
-/

set_option maxRecDepth 8000

namespace ContactsScrape

/-- Whitespace as recognised by Python's `str.strip()` and the regex class
`\s` on `str` inputs: ASCII whitespace, the file/group/record/unit
separators, NEL, NBSP and the Unicode space separators. -/
def isPySpace (c : Char) : Bool :=
  c = ' ' || ('\x09' ≤ c && c ≤ '\x0d') || ('\x1c' ≤ c && c ≤ '\x1f') ||
  c = '\x85' || c = '\xa0' || c = ' ' ||
  (' ' ≤ c && c ≤ ' ') || c = ' ' || c = ' ' ||
  c = ' ' || c = ' ' || c = '　'

/-- Python `str.strip()`: drop whitespace from the front, then from the back. -/
def pyStrip (s : List Char) : List Char :=
  ((s.dropWhile isPySpace).reverse.dropWhile isPySpace).reverse

/-- One item of a regular expression in the fragment used by
`parse_contacts`: a literal chunk, a non-capturing `\s*`-style starred class,
a non-capturing plus class `[^x]+`, or the capturing group `([^x]+)`. -/
inductive RItem where
  | lit (l : List Char)
  | star (p : Char → Bool)
  | plus (p : Char → Bool)
  | cap (p : Char → Bool)

/-- Match a literal chunk at the head of the input, returning the rest. -/
def matchLit : List Char → List Char → Option (List Char)
  | [], s => some s
  | _ :: _, [] => none
  | a :: l, b :: s => if a = b then matchLit l s else none

/-- Match a pattern at the head of the input.  Returns the text of the
capture group and the remaining input.  Greedy matching of the repeated
classes is exact for the patterns of `parse_contacts` because each class
excludes the first character of the following literal (see the header
comment), so no backtracking can ever succeed where the maximal run fails. -/
def matchItems : List RItem → List Char → Option (List Char × List Char)
  | [], s => some ([], s)
  | RItem.lit l :: items, s =>
    match matchLit l s with
    | some s' => matchItems items s'
    | none => none
  | RItem.star p :: items, s => matchItems items (s.dropWhile p)
  | RItem.plus p :: items, s =>
    if s.takeWhile p = [] then none
    else matchItems items (s.dropWhile p)
  | RItem.cap p :: items, s =>
    if s.takeWhile p = [] then none
    else
      match matchItems items (s.dropWhile p) with
      | some (_, r) => some (s.takeWhile p, r)
      | none => none

/-- The scan of `re.findall`, fuel-indexed for structural termination: at each
position try the pattern; on a match that consumed input, continue after it;
otherwise move one character right.  Every recursive call shortens the input,
so fuel `s.length + 1` (as supplied by `findAll`) is never exhausted. -/
def findAllAux (pat : List RItem) : Nat → List Char → List (List Char)
  | 0, _ => []
  | fuel + 1, s =>
    match matchItems pat s with
    | some (c, rest) =>
      if rest.length < s.length then c :: findAllAux pat fuel rest
      else
        match s with
        | [] => [c]
        | _ :: t => c :: findAllAux pat fuel t
    | none =>
      match s with
      | [] => []
      | _ :: t => findAllAux pat fuel t

/-- Python `re.findall(pat, s)` for the one-group patterns of `parse_contacts`. -/
def findAll (pat : List RItem) (s : List Char) : List (List Char) :=
  findAllAux pat (s.length + 1) s

/-- The class `[^"]` . -/
def notQuote (c : Char) : Bool := c ≠ '"'

/-- The class `[^<]` . -/
def notLt (c : Char) : Bool := c ≠ '<'

/-- Source: `name_pattern = r'<div class="member_name"><a href="[^"]+">([^<]+)</a>'` -/
def name_pattern : List RItem :=
  [RItem.lit ("<div class=\"member_name\"><a href=\"").toList,
   RItem.plus notQuote,
   RItem.lit ("\">").toList,
   RItem.cap notLt,
   RItem.lit ("</a>").toList]

/-- Source: `title_pattern = r'<div class="member_info_title"><i class="fas fa-briefcase"></i>職稱</div>\s*<div class="member_info_content">([^<]+)</div>'` -/
def title_pattern : List RItem :=
  [RItem.lit ("<div class=\"member_info_title\"><i class=\"fas fa-briefcase\"></i>職稱</div>").toList,
   RItem.star isPySpace,
   RItem.lit ("<div class=\"member_info_content\">").toList,
   RItem.cap notLt,
   RItem.lit ("</div>").toList]

/-- Source: `email_pattern = r'<div class="member_info_title"><i class="fas fa-envelope"></i>信箱</div>\s*<div class="member_info_content"><a href="mailto://[^"]+">([^<]+)</a></div>'` -/
def email_pattern : List RItem :=
  [RItem.lit ("<div class=\"member_info_title\"><i class=\"fas fa-envelope\"></i>信箱</div>").toList,
   RItem.star isPySpace,
   RItem.lit ("<div class=\"member_info_content\"><a href=\"mailto://").toList,
   RItem.plus notQuote,
   RItem.lit ("\">").toList,
   RItem.cap notLt,
   RItem.lit ("</a></div>").toList]

/-- One contact record: `(name, title, email)`, as the Python tuples. -/
abbrev Contact := List Char × List Char × List Char

/-- Source: `parse_contacts(html)` — find all matches of the three patterns
independently, pair them positionally with `zip`, and strip each field. -/
def parse_contacts (html : List Char) : List Contact :=
  let names := findAll name_pattern html
  let titles := findAll title_pattern html
  let emails := findAll email_pattern html
  (names.zip (titles.zip emails)).map
    (fun x => (pyStrip x.1, pyStrip x.2.1, pyStrip x.2.2))

/-! Record store: `setup_database`, `save_to_database`.

The SQLite table `contacts` is modelled by its schema and its list of rows in
insertion order (the `iid INTEGER PRIMARY KEY AUTOINCREMENT` key is exactly
the row's position in that ever-growing list, so it is left implicit).  With
`email TEXT NOT NULL UNIQUE`, the statement `INSERT OR IGNORE` appends the
row when no existing row has the same email and is a silent no-op otherwise;
it never raises `sqlite3.IntegrityError` for a duplicate, so the
`except sqlite3.IntegrityError: continue` of `save_to_database` is dead and
the model needs no error channel. -/

/-- The effect of
`INSERT OR IGNORE INTO contacts (name, title, email) VALUES (?, ?, ?)`
on the rows of a table whose `email` column is `UNIQUE`. -/
def insert_or_ignore (rows : List Contact) (c : Contact) : List Contact :=
  if ∃ r ∈ rows, r.2.2 = c.2.2 then rows else rows ++ [c]

/-- Source: `save_to_database(contacts)` — one `INSERT OR IGNORE` per record, in batch
order, then commit.  Takes and returns the table rows. -/
def save_to_database (contacts : List Contact) (rows : List Contact) : List Contact :=
  contacts.foldl insert_or_ignore rows

/-- One column declaration of the `CREATE TABLE` statement. -/
structure ColumnSpec where
  colName : List Char
  intPrimaryKeyAutoinc : Bool
  notNull : Bool
  uniq : Bool
  deriving DecidableEq

/-- The column list of
`CREATE TABLE ... contacts (iid INTEGER PRIMARY KEY AUTOINCREMENT,
name TEXT NOT NULL, title TEXT NOT NULL, email TEXT NOT NULL UNIQUE)`. -/
def contacts_columns : List ColumnSpec :=
  [⟨("iid").toList, true, false, false⟩,
   ⟨("name").toList, false, true, false⟩,
   ⟨("title").toList, false, true, false⟩,
   ⟨("email").toList, false, true, true⟩]

/-- A database file: the `contacts` table's declared columns and its rows. -/
structure Table where
  schema : List ColumnSpec
  rows : List Contact
  deriving DecidableEq

/-- Source: `setup_database(db_name)` — `CREATE TABLE IF NOT EXISTS` — when the table
is absent (`none`) create it empty with the declared schema, when it already
exists keep it exactly as it is. -/
def setup_database : Option Table → Table
  | some t => t
  | none => ⟨contacts_columns, []⟩

/-! Fetcher and controller: `scrape_contacts`, `on_scrape`. -/

/-- What the network did for the single `requests.get(url)`: an HTTP response
with its status code and body text, or a transport-level fault (DNS, timeout,
reset — every one a `requests.RequestException`). -/
inductive HttpOutcome where
  | response (status : Nat) (body : List Char)
  | transportFault

/-- Calling `response.raise_for_status()` raises `requests.HTTPError` (a
`RequestException`) exactly for client- and server-error codes 4xx/5xx. -/
def statusError (status : Nat) : Bool := 400 ≤ status && status < 600

/-- Result of `scrape_contacts`: the returned record list, and whether the
`messagebox.showerror` dialog was shown. -/
structure ScrapeOut where
  records : List Contact
  errorShown : Bool
  deriving DecidableEq

/-- Source: `scrape_contacts(url)` — GET the url; on a 4xx/5xx status or a transport
fault, show the error dialog and return `[]`; otherwise parse the body. -/
def scrape_contacts (o : HttpOutcome) : ScrapeOut :=
  match o with
  | .response status body =>
    if statusError status then ⟨[], true⟩ else ⟨parse_contacts body, false⟩
  | .transportFault => ⟨[], true⟩

/-- The controller-visible state: the store rows, the text currently shown in
the output widget (`none` = never written), and whether an error dialog has
been shown. -/
structure UIState where
  db : List Contact
  displayText : Option (List Char)
  errorShown : Bool

/-- Width constant `name_width = 12` of `display_contacts`. -/
def name_width : Int := 12

def title_width : Int := 28

def email_width : Int := 28

/-- Is the character a CJK Unified Ideograph (`'一' <= char <= '鿿'`)? -/
def isCJK (c : Char) : Bool := '一' ≤ c && c ≤ '鿿'

/-- Source: `calculate_padding(element, target_width)` — count the CJK characters,
add them once more to the length (a CJK character shows as two columns), and
clamp the leftover space at zero. -/
def calculate_padding (element : List Char) (target_width : Int) : Int :=
  let chinese_count : Nat := element.countP isCJK
  let actual_length : Nat := element.length + chinese_count
  max 0 (target_width - (actual_length : Int))

/-- Python `f"{s:<w}"`: pad `s` with spaces on the right up to `w`
*characters* (not display columns). -/
def pyLJust (s : List Char) (w : Nat) : List Char :=
  s ++ List.replicate (w - s.length) ' '

/-- Source: `header = f"{'姓名':<10}{'職稱':<26}{'EMAIL':<28}\n"`. -/
def header : List Char :=
  pyLJust ("姓名").toList 10 ++ pyLJust ("職稱").toList 26 ++
    pyLJust ("EMAIL").toList 28 ++ [ '\n' ]

/-- Source: `separator = "-" * (name_width + title_width + email_width) + "\n"`. -/
def separator : List Char :=
  List.replicate (name_width + title_width + email_width).toNat '-' ++ [ '\n' ]

/-- One data row of `display_contacts`: each field followed by its computed
number of spaces (`' ' * padding`, empty for a non-positive count). -/
def formatRow (c : Contact) : List Char :=
  c.1 ++ List.replicate (calculate_padding c.1 name_width).toNat ' ' ++
  c.2.1 ++ List.replicate (calculate_padding c.2.1 title_width).toNat ' ' ++
  c.2.2 ++ List.replicate (calculate_padding c.2.2 email_width).toNat ' ' ++
  [ '\n' ]

/-- Source: `display_contacts(contacts, text_widget)` — clear the widget, then insert
the header, the separator and one row per record; the model is the full text
the widget holds afterwards. -/
def display_contacts (contacts : List Contact) : List Char :=
  header ++ separator ++ (contacts.map formatRow).flatten

/-- Source: `on_scrape()` — read and strip the URL; an empty URL only shows an error
dialog.  Otherwise scrape; a non-empty record list is saved to the database
and displayed, an empty one (error or no matches) changes nothing else. -/
def on_scrape (url : List Char) (o : HttpOutcome) (st : UIState) : UIState :=
  if pyStrip url = [] then { st with errorShown := true }
  else
    let r := scrape_contacts o
    let st1 : UIState := { st with errorShown := st.errorShown || r.errorShown }
    if r.records = [] then st1
    else { st1 with
            db := save_to_database r.records st1.db,
            displayText := some (display_contacts r.records) }

/-! Specification-side definitions and sample inputs. -/

/-- Did the single `requests.get` end in a `RequestException` — either a
4xx/5xx status (via `raise_for_status`) or a transport fault? -/
def fetchFailed (o : HttpOutcome) : Bool :=
  match o with
  | .response status _ => statusError status
  | .transportFault => true

/-- Display width as worded by the specification: a CJK Unified Ideograph
occupies 2 columns, every other character occupies 1. -/
def displayWidth (s : List Char) : Nat :=
  (s.map (fun c => if isCJK c then 2 else 1)).sum

/-- The records of a batch whose email is new, in batch order, the first
occurrence of each email winning; `seen` holds the emails already present.
This is the specification's description of what `saveAll` adds, stated
independently of the insertion fold of `save_to_database`. -/
def newUnder (seen : List (List Char)) : List Contact → List Contact
  | [] => []
  | c :: rest =>
    if c.2.2 ∈ seen then newUnder seen rest
    else c :: newUnder (c.2.2 :: seen) rest

/-- A well-formed page fragment: one complete member card, with whitespace
inside the captured fields and between the tags. -/
def goodHtml : List Char :=
  ("<div class=\"member_name\"><a href=\"x\"> 王小明 </a><div class=\"member_info_title\"><i class=\"fas fa-briefcase\"></i>職稱</div>\n  <div class=\"member_info_content\">教授</div><div class=\"member_info_title\"><i class=\"fas fa-envelope\"></i>信箱</div> <div class=\"member_info_content\"><a href=\"mailto://a@b\">a@b</a></div>").toList

/-- A page fragment whose name link contains only a single space, so the
captured name is whitespace-only and strips to the empty string. -/
def badHtml : List Char :=
  ("<div class=\"member_name\"><a href=\"u\"> </a><div class=\"member_info_title\"><i class=\"fas fa-briefcase\"></i>職稱</div><div class=\"member_info_content\">T</div><div class=\"member_info_title\"><i class=\"fas fa-envelope\"></i>信箱</div><div class=\"member_info_content\"><a href=\"mailto://e\">E</a></div>").toList

/-! Theorems. -/

/-- C1:  For every markup string, the output of `parse_contacts` has
length equal to the minimum of the match counts of the name, title and email
patterns; in particular, if any one of the three has zero matches, the
output is empty. -/
theorem parse_contacts_length_min (html : List Char) :
    (parse_contacts html).length =
      min ((findAll name_pattern html).length)
        (min ((findAll title_pattern html).length)
          ((findAll email_pattern html).length)) ∧
    (((findAll name_pattern html).length = 0 ∨
      (findAll title_pattern html).length = 0 ∨
      (findAll email_pattern html).length = 0) →
      parse_contacts html = []) := by
  have hlen : (parse_contacts html).length =
      min ((findAll name_pattern html).length)
        (min ((findAll title_pattern html).length)
          ((findAll email_pattern html).length)) := by
    simp [parse_contacts]
  refine ⟨hlen, fun h => ?_⟩
  have hz : (parse_contacts html).length = 0 := by rw [hlen]; omega
  exact List.length_eq_zero.mp hz

/-- Witness for C1 at the empty document: the name pattern has no match
there, and the output is empty. -/
theorem parse_contacts_length_min_witness : parse_contacts [] = [] :=
  (parse_contacts_length_min []).2 (Or.inl (by decide))

/-- Counting one extra column per CJK character is the same as summing
per-character display widths. -/
theorem displayWidth_eq_length_add_countP (s : List Char) :
    displayWidth s = s.length + s.countP isCJK := by
  induction s with
  | nil => simp [displayWidth]
  | cons a t ih =>
    by_cases h : isCJK a <;>
      simp [displayWidth, List.countP_cons, h] at * <;> omega

/-- C5:  `calculate_padding` equals `max 0 (targetWidth - displayWidth)`
where a character in U+4E00–U+9FFF counts 2 columns and any other counts 1;
a name of 3 CJK characters and 1 other character at target width 12 has
display width 7 and gets 5 trailing spaces, which the row builder appends
after the field. -/
theorem calculate_padding_displayWidth :
    (∀ (e : List Char) (w : Int),
      calculate_padding e w = max 0 (w - (displayWidth e : Int))) ∧
    (∀ c₁ c₂ c₃ a : Char, isCJK c₁ = true → isCJK c₂ = true →
      isCJK c₃ = true → isCJK a = false →
      displayWidth [c₁, c₂, c₃, a] = 7 ∧
      calculate_padding [c₁, c₂, c₃, a] 12 = 5) ∧
    (∀ c : Contact, formatRow c =
      c.1 ++ List.replicate (calculate_padding c.1 name_width).toNat ' ' ++
      c.2.1 ++ List.replicate (calculate_padding c.2.1 title_width).toNat ' ' ++
      c.2.2 ++ List.replicate (calculate_padding c.2.2 email_width).toNat ' ' ++
      [ '\n' ]) := by
  refine ⟨fun e w => ?_, fun c₁ c₂ c₃ a h₁ h₂ h₃ h₄ => ⟨?_, ?_⟩, fun c => rfl⟩
  · simp [calculate_padding, displayWidth_eq_length_add_countP]
  · simp [displayWidth, h₁, h₂, h₃, h₄]
  · simp [calculate_padding, List.countP_cons, h₁, h₂, h₃, h₄]

/-- Witness for C5 on the name `陳大文A` at target width 12. -/
theorem calculate_padding_displayWidth_witness :
    displayWidth ['陳', '大', '文', 'A'] = 7 ∧
    calculate_padding ['陳', '大', '文', 'A'] 12 = 5 :=
  calculate_padding_displayWidth.2.1 '陳' '大' '文' 'A'
    (by decide) (by decide) (by decide) (by decide)

/-- C6:  The header line equals the three labels each right-padded by the
data-field padding rule (`calculate_padding`) at the per-column target
widths, and each padded header cell occupies exactly its column's target
display width. -/
theorem header_display_aligned :
    header =
      (("姓名").toList ++
        List.replicate (calculate_padding ("姓名").toList name_width).toNat ' ') ++
      (("職稱").toList ++
        List.replicate (calculate_padding ("職稱").toList title_width).toNat ' ') ++
      (("EMAIL").toList ++
        List.replicate (calculate_padding ("EMAIL").toList email_width).toNat ' ') ++
      [ '\n' ] ∧
    (displayWidth (pyLJust ("姓名").toList 10) : Int) = name_width ∧
    (displayWidth (pyLJust ("職稱").toList 26) : Int) = title_width ∧
    (displayWidth (pyLJust ("EMAIL").toList 28) : Int) = email_width := by
  refine ⟨by decide, by decide, by decide, by decide⟩

/-- C9:  `setup_database` creates the `contacts` table only when it is
absent, with an auto-incrementing integer primary key and `name`, `title`,
`email` all `NOT NULL`, `email` additionally `UNIQUE`; an existing table is
left untouched, contents included. -/
theorem setup_database_create_if_absent :
    (∀ t, setup_database (some t) = t) ∧
    (setup_database none).rows = [] ∧
    (setup_database none).schema.map (fun c => c.colName) =
      [("iid").toList, ("name").toList, ("title").toList, ("email").toList] ∧
    (setup_database none).schema.map (fun c => c.intPrimaryKeyAutoinc) =
      [true, false, false, false] ∧
    (setup_database none).schema.map (fun c => c.notNull) =
      [false, true, true, true] ∧
    (setup_database none).schema.map (fun c => c.uniq) =
      [false, false, false, true] :=
  ⟨fun _ => rfl, rfl, by decide, by decide, by decide, by decide⟩

/-- C10:  The formatter never truncates: each field of a record appears
verbatim in its row, and when a field's display width meets or exceeds the
column target the computed padding is zero and appending it leaves the field
as is. -/
theorem formatter_never_truncates :
    (∀ c : Contact,
      (∃ post, formatRow c = c.1 ++ post) ∧
      (∃ pre post, formatRow c = pre ++ c.2.1 ++ post) ∧
      (∃ pre post, formatRow c = pre ++ c.2.2 ++ post)) ∧
    (∀ (e : List Char) (w : Int), w ≤ (displayWidth e : Int) →
      calculate_padding e w = 0 ∧
      e ++ List.replicate (calculate_padding e w).toNat ' ' = e) := by
  constructor
  · intro c
    refine ⟨⟨List.replicate (calculate_padding c.1 name_width).toNat ' ' ++
        c.2.1 ++ List.replicate (calculate_padding c.2.1 title_width).toNat ' ' ++
        c.2.2 ++ List.replicate (calculate_padding c.2.2 email_width).toNat ' ' ++
        [ '\n' ], ?_⟩,
      ⟨c.1 ++ List.replicate (calculate_padding c.1 name_width).toNat ' ',
        List.replicate (calculate_padding c.2.1 title_width).toNat ' ' ++
        c.2.2 ++ List.replicate (calculate_padding c.2.2 email_width).toNat ' ' ++
        [ '\n' ], ?_⟩,
      ⟨c.1 ++ List.replicate (calculate_padding c.1 name_width).toNat ' ' ++
        c.2.1 ++ List.replicate (calculate_padding c.2.1 title_width).toNat ' ',
        List.replicate (calculate_padding c.2.2 email_width).toNat ' ' ++ [ '\n' ],
        ?_⟩⟩ <;> simp [formatRow]
  · intro e w h
    have hp : calculate_padding e w = 0 := by
      have := displayWidth_eq_length_add_countP e
      simp only [calculate_padding]
      omega
    exact ⟨hp, by simp [hp]⟩

/-- Witness for C10: a 13-character ASCII field at target width 12 gets zero
padding and is kept whole. -/
theorem formatter_never_truncates_witness :
    calculate_padding (("ABCDEFGHIJKLM").toList) 12 = 0 ∧
    ("ABCDEFGHIJKLM").toList ++
      List.replicate (calculate_padding (("ABCDEFGHIJKLM").toList) 12).toNat ' ' =
      ("ABCDEFGHIJKLM").toList :=
  formatter_never_truncates.2 (("ABCDEFGHIJKLM").toList) 12 (by decide)

/-- C7:  When the fetch fails — a 4xx/5xx status or a transport fault —
`scrape_contacts` shows the error message and returns zero records, and
`on_scrape` leaves the store and the display untouched. -/
theorem fetch_failure_leaves_store (url : List Char) (o : HttpOutcome)
    (st : UIState) (hurl : pyStrip url ≠ []) (hfail : fetchFailed o = true) :
    (scrape_contacts o).records = [] ∧
    (scrape_contacts o).errorShown = true ∧
    (on_scrape url o st).db = st.db ∧
    (on_scrape url o st).displayText = st.displayText ∧
    (on_scrape url o st).errorShown = true := by
  have hs : scrape_contacts o = ⟨[], true⟩ := by
    cases o with
    | response status body =>
      simp only [fetchFailed] at hfail
      simp [scrape_contacts, hfail]
    | transportFault => rfl
  refine ⟨by rw [hs], by rw [hs], ?_, ?_, ?_⟩ <;> simp [on_scrape, hurl, hs]

/-- Witness for C7: HTTP 404 on a nonempty URL with an empty store. -/
theorem fetch_failure_leaves_store_witness :
    (on_scrape (("u").toList) (HttpOutcome.response 404 []) ⟨[], none, false⟩).db =
      [] :=
  (fetch_failure_leaves_store (("u").toList) (HttpOutcome.response 404 [])
    ⟨[], none, false⟩ (by decide) (by decide)).2.2.1

/-- Selection `newUnder` only inspects membership in `seen`, so any two `seen` lists
with the same members produce the same selection. -/
theorem newUnder_congr (s₁ s₂ : List (List Char))
    (h : ∀ e, e ∈ s₁ ↔ e ∈ s₂) :
    ∀ l : List Contact, newUnder s₁ l = newUnder s₂ l := by
  intro l
  induction l generalizing s₁ s₂ with
  | nil => rfl
  | cons c rest ih =>
    simp only [newUnder]
    by_cases hc : c.2.2 ∈ s₁
    · rw [if_pos hc, if_pos ((h _).mp hc)]
      exact ih s₁ s₂ h
    · rw [if_neg hc, if_neg (fun hx => hc ((h _).mpr hx))]
      exact congrArg _ (ih _ _ (fun e => by simp [h e]))

/-- C2:  After `save_to_database` the store holds exactly its prior rows
followed by those batch records whose email was not already present, neither
in the prior store nor earlier in the batch; colliding duplicates are
dropped with the first occurrence winning (and, the embedding having no
error channel to fill, no error is raised for a duplicate). -/
theorem save_to_database_union (contacts rows : List Contact) :
    save_to_database contacts rows =
      rows ++ newUnder (rows.map (fun r => r.2.2)) contacts := by
  induction contacts generalizing rows with
  | nil => simp [save_to_database, newUnder]
  | cons c rest ih =>
    show save_to_database rest (insert_or_ignore rows c) = _
    by_cases h : ∃ r ∈ rows, r.2.2 = c.2.2
    · have hmem : c.2.2 ∈ rows.map (fun r => r.2.2) := by
        obtain ⟨r, hr, he⟩ := h
        exact List.mem_map.mpr ⟨r, hr, he⟩
      rw [show insert_or_ignore rows c = rows from if_pos h]
      rw [ih rows]
      simp [newUnder, hmem]
    · have hmem : c.2.2 ∉ rows.map (fun r => r.2.2) := by
        intro hx
        obtain ⟨r, hr, he⟩ := List.mem_map.mp hx
        exact h ⟨r, hr, he⟩
      rw [show insert_or_ignore rows c = rows ++ [c] from if_neg h]
      rw [ih (rows ++ [c])]
      simp only [newUnder, hmem, if_neg, List.map_append, List.append_assoc,
        List.map_cons, List.map_nil]
      refine congrArg _ ?_
      refine congrArg _ ?_
      exact newUnder_congr _ _ (fun e => by simp [or_comm]) rest

/-- Every email of the prior rows survives a batch of inserts. -/
theorem email_mem_save (contacts : List Contact) :
    ∀ (rows : List Contact) (e : List Char),
      e ∈ rows.map (fun r => r.2.2) →
      e ∈ (save_to_database contacts rows).map (fun r => r.2.2) := by
  induction contacts with
  | nil => exact fun rows e h => h
  | cons c rest ih =>
    intro rows e h
    apply ih
    unfold insert_or_ignore
    split <;> simp_all

/-- After a batch is saved, the email of every record of the batch is in the
store. -/
theorem batch_emails_in_save (contacts : List Contact) :
    ∀ rows : List Contact, ∀ c ∈ contacts,
      c.2.2 ∈ (save_to_database contacts rows).map (fun r => r.2.2) := by
  induction contacts with
  | nil => simp
  | cons c rest ih =>
    intro rows d hd
    rcases List.mem_cons.mp hd with heq | hd
    · subst heq
      show d.2.2 ∈
        (save_to_database rest (insert_or_ignore rows d)).map (fun r => r.2.2)
      apply email_mem_save
      unfold insert_or_ignore
      split
      · next h => obtain ⟨r, hr, he⟩ := h; exact List.mem_map.mpr ⟨r, hr, he⟩
      · simp
    · exact ih _ d hd

/-- A batch all of whose emails are already present inserts nothing. -/
theorem save_no_new (contacts : List Contact) :
    ∀ rows : List Contact,
      (∀ c ∈ contacts, c.2.2 ∈ rows.map (fun r => r.2.2)) →
      save_to_database contacts rows = rows := by
  induction contacts with
  | nil => exact fun rows _ => rfl
  | cons c rest ih =>
    intro rows h
    have hc := h c (by simp)
    have hins : insert_or_ignore rows c = rows := by
      refine if_pos ?_
      obtain ⟨r, hr, he⟩ := List.mem_map.mp hc
      exact ⟨r, hr, he⟩
    show save_to_database rest (insert_or_ignore rows c) = rows
    rw [hins]
    exact ih rows (fun d hd => h d (List.mem_cons_of_mem _ hd))

/-- C4:  `save_to_database` is idempotent: saving the same batch twice in
succession leaves the store exactly as one save does. -/
theorem save_to_database_idempotent (batch rows : List Contact) :
    save_to_database batch (save_to_database batch rows) =
      save_to_database batch rows :=
  save_no_new batch _ (fun c hc => batch_emails_in_save batch rows c hc)

/-- Dropping a satisfied prefix twice is the same as dropping it once. -/
theorem dropWhile_dropWhile (p : Char → Bool) (l : List Char) :
    (l.dropWhile p).dropWhile p = l.dropWhile p := by
  induction l with
  | nil => rfl
  | cons a t ih =>
    by_cases h : p a
    · simp [List.dropWhile_cons, h, ih]
    · simp [List.dropWhile_cons, h]

/-- A prefix of a list that starts with no satisfied run also starts with no
satisfied run. -/
theorem prefix_front_trimmed {p : Char → Bool} {l m : List Char}
    (hm : m <+: l) (hl : l.dropWhile p = l) : m.dropWhile p = m := by
  cases m with
  | nil => rfl
  | cons a t =>
    obtain ⟨rest, hrest⟩ := hm
    subst hrest
    have hpa : p a = false := by
      by_contra hcon
      have hpa' : p a = true := by simpa using hcon
      have hlen := congrArg List.length hl
      rw [List.cons_append, List.dropWhile_cons, if_pos hpa'] at hlen
      have hle := (List.dropWhile_suffix p (l := t ++ rest)).length_le
      rw [hlen, List.length_cons] at hle
      omega
    simp [List.dropWhile_cons, hpa]

/-- Trimming from the back yields a prefix of the original list. -/
theorem backTrim_pre (p : Char → Bool) (l : List Char) :
    (l.reverse.dropWhile p).reverse <+: l := by
  have h := List.reverse_prefix.mpr (List.dropWhile_suffix p (l := l.reverse))
  simpa using h

/-- Stripping leaves no leading whitespace. -/
theorem pyStrip_no_leading (s : List Char) :
    (pyStrip s).dropWhile isPySpace = pyStrip s :=
  prefix_front_trimmed (backTrim_pre isPySpace (s.dropWhile isPySpace))
    (dropWhile_dropWhile isPySpace s)

/-- Stripping leaves no trailing whitespace. -/
theorem pyStrip_no_trailing (s : List Char) :
    ((pyStrip s).reverse.dropWhile isPySpace).reverse = pyStrip s := by
  unfold pyStrip
  rw [List.reverse_reverse, dropWhile_dropWhile]

/-- C8:  Every field of every record produced by `parse_contacts` is free
of leading and of trailing whitespace. -/
theorem parse_contacts_fields_trimmed (html : List Char) (rec : Contact)
    (h : rec ∈ parse_contacts html) :
    (rec.1.dropWhile isPySpace = rec.1 ∧
      (rec.1.reverse.dropWhile isPySpace).reverse = rec.1) ∧
    (rec.2.1.dropWhile isPySpace = rec.2.1 ∧
      (rec.2.1.reverse.dropWhile isPySpace).reverse = rec.2.1) ∧
    (rec.2.2.dropWhile isPySpace = rec.2.2 ∧
      (rec.2.2.reverse.dropWhile isPySpace).reverse = rec.2.2) := by
  simp only [parse_contacts] at h
  obtain ⟨x, _, rfl⟩ := List.mem_map.mp h
  exact ⟨⟨pyStrip_no_leading _, pyStrip_no_trailing _⟩,
    ⟨pyStrip_no_leading _, pyStrip_no_trailing _⟩,
    ⟨pyStrip_no_leading _, pyStrip_no_trailing _⟩⟩

/-- Witness for C8 on the record parsed from `goodHtml`, whose raw captures
carry surrounding whitespace. -/
theorem parse_contacts_fields_trimmed_witness :
    ((("王小明").toList.dropWhile isPySpace = ("王小明").toList ∧
      (("王小明").toList.reverse.dropWhile isPySpace).reverse =
        ("王小明").toList) ∧
    (("教授").toList.dropWhile isPySpace = ("教授").toList ∧
      (("教授").toList.reverse.dropWhile isPySpace).reverse =
        ("教授").toList) ∧
    (("a@b").toList.dropWhile isPySpace = ("a@b").toList ∧
      (("a@b").toList.reverse.dropWhile isPySpace).reverse =
        ("a@b").toList)) :=
  parse_contacts_fields_trimmed goodHtml
    (("王小明").toList, ("教授").toList, ("a@b").toList) (by decide)

/-- A pattern that contains a capturing group never yields an empty
capture: the group's class is matched with `+`. -/
theorem matchItems_capture_ne {items : List RItem} :
    ∀ {s c r : List Char}, (∃ p, RItem.cap p ∈ items) →
      matchItems items s = some (c, r) → c ≠ [] := by
  induction items with
  | nil =>
    intro s c r hcap _
    obtain ⟨p, hp⟩ := hcap
    simp at hp
  | cons i rest ih =>
    intro s c r hcap h
    obtain ⟨p, hp⟩ := hcap
    cases i with
    | lit l =>
      rw [matchItems] at h
      split at h
      · refine ih ⟨p, ?_⟩ h
        rcases List.mem_cons.mp hp with heq | hrest
        · cases heq
        · exact hrest
      · cases h
    | star q =>
      rw [matchItems] at h
      refine ih ⟨p, ?_⟩ h
      rcases List.mem_cons.mp hp with heq | hrest
      · cases heq
      · exact hrest
    | plus q =>
      rw [matchItems] at h
      split at h
      · cases h
      · refine ih ⟨p, ?_⟩ h
        rcases List.mem_cons.mp hp with heq | hrest
        · cases heq
        · exact hrest
    | cap q =>
      rw [matchItems] at h
      split at h
      · cases h
      · next hts =>
        split at h
        · cases h
          exact hts
        · cases h

/-- Every capture returned by the scan of a capturing pattern is non-empty. -/
theorem findAllAux_capture_ne {pat : List RItem}
    (hcap : ∃ p, RItem.cap p ∈ pat) :
    ∀ (fuel : Nat) (s : List Char), ∀ c ∈ findAllAux pat fuel s, c ≠ [] := by
  intro fuel
  induction fuel with
  | zero =>
    intro s c hc
    simp [findAllAux] at hc
  | succ n ih =>
    intro s c hc
    simp only [findAllAux] at hc
    split at hc
    · next c' rest hmi =>
      split at hc
      · rcases List.mem_cons.mp hc with heq | hmem
        · subst heq; exact matchItems_capture_ne hcap hmi
        · exact ih _ _ hmem
      · split at hc
        · rw [List.mem_singleton] at hc
          subst hc; exact matchItems_capture_ne hcap hmi
        · rcases List.mem_cons.mp hc with heq | hmem
          · subst heq; exact matchItems_capture_ne hcap hmi
          · exact ih _ _ hmem
    · split at hc
      · simp at hc
      · exact ih _ _ hc

/-- The name pattern has a capturing group. -/
theorem name_pattern_capture : ∃ p, RItem.cap p ∈ name_pattern :=
  ⟨notLt, by simp [name_pattern]⟩

/-- The title pattern has a capturing group. -/
theorem title_pattern_capture : ∃ p, RItem.cap p ∈ title_pattern :=
  ⟨notLt, by simp [title_pattern]⟩

/-- The email pattern has a capturing group. -/
theorem email_pattern_capture : ∃ p, RItem.cap p ∈ email_pattern :=
  ⟨notLt, by simp [email_pattern]⟩

/-- C3 counterexample:  On `badHtml` — whose name link holds a lone
space — `parse_contacts` constructs a record whose name field is empty
after trimming, so "a record with an empty field is never constructed"
fails on the code. -/
theorem parse_contacts_empty_field_cex :
    parse_contacts badHtml =
      [(([] : List Char), ("T").toList, ("E").toList)] ∧
    ¬ (∀ rec ∈ parse_contacts badHtml,
        rec.1 ≠ [] ∧ rec.2.1 ≠ [] ∧ rec.2.2 ≠ []) := by
  refine ⟨by decide, fun hall => ?_⟩
  exact (hall (([] : List Char), ("T").toList, ("E").toList) (by decide)).1 rfl

/-- C3 amended:  Every record produced by `parse_contacts` has its three
fields obtained by trimming captures that are non-empty before trimming; a
field can still be empty when its capture was all whitespace, and such a
record is constructed anyway. -/
theorem parse_contacts_fields_from_captures (html : List Char) (rec : Contact)
    (h : rec ∈ parse_contacts html) :
    ∃ n t e, n ∈ findAll name_pattern html ∧ t ∈ findAll title_pattern html ∧
      e ∈ findAll email_pattern html ∧ n ≠ [] ∧ t ≠ [] ∧ e ≠ [] ∧
      rec = (pyStrip n, pyStrip t, pyStrip e) := by
  simp only [parse_contacts] at h
  obtain ⟨x, hx, hfx⟩ := List.mem_map.mp h
  obtain ⟨n, t, e⟩ := x
  obtain ⟨hn, hte⟩ := List.of_mem_zip hx
  obtain ⟨ht, he⟩ := List.of_mem_zip hte
  exact ⟨n, t, e, hn, ht, he,
    findAllAux_capture_ne name_pattern_capture _ _ n hn,
    findAllAux_capture_ne title_pattern_capture _ _ t ht,
    findAllAux_capture_ne email_pattern_capture _ _ e he,
    hfx.symm⟩

/-- Witness for the amended C3 on the record parsed from `goodHtml`. -/
theorem parse_contacts_fields_from_captures_witness :
    ∃ n t e, n ∈ findAll name_pattern goodHtml ∧
      t ∈ findAll title_pattern goodHtml ∧
      e ∈ findAll email_pattern goodHtml ∧ n ≠ [] ∧ t ≠ [] ∧ e ≠ [] ∧
      ((("王小明").toList, ("教授").toList, ("a@b").toList) : Contact) =
        (pyStrip n, pyStrip t, pyStrip e) :=
  parse_contacts_fields_from_captures goodHtml
    (("王小明").toList, ("教授").toList, ("a@b").toList) (by decide)

end ContactsScrape
